import Mathlib

/-!
# Verification of the tiny-v1 relay-box link driver (`src/tiny.py`)

A shallow embedding of the `Tiny` serial-port wrapper.  Bytes are `Nat`
values below 256, frames are lists of bytes, and the serial transport is a
pure state: the list of pending results of successive `port.read(5)` calls,
the list of frames written so far, and a count of error-level log events
(`_log.error` calls).  Python integers are `Int` with Python's bitmask
semantics (`x & (2^k - 1) = x mod 2^k`, nonnegative), Python floats are
modelled as exact rationals (`ℚ`; the non-finite values `inf`/`nan` are
outside the model), and `struct.pack` range failures are modelled by
`Option`.
-/

namespace Tiny

/-- `TINYRATE = 156250` — the box clock rate in ticks per second
(`src/tiny.py` line 10). -/
def TINYRATE : Nat := 156250

/-- The serial transport state.  `reads` holds the byte strings that the
successive `self._port.read(5)` calls will return (an empty byte string is
a hard timeout; once the list is exhausted every further read times out);
`writes` accumulates the buffers passed to `self._port.write`; `errors`
counts `_log.error` calls. -/
structure Transport where
  reads : List (List Nat)
  writes : List (List Nat)
  errors : Nat
deriving DecidableEq, Repr

/-- `Tiny._write` (line 35): write the buffer to the port. -/
def twrite (buf : List Nat) (t : Transport) : Transport :=
  { t with writes := t.writes ++ [buf] }

/-- `Tiny._read` (lines 39-49): read up to `count` bytes; any result that
is not exactly `count` bytes long (a short read or a timeout) is collapsed
to the empty byte string. -/
def tread (count : Nat) (t : Transport) : List Nat × Transport :=
  match t.reads with
  | [] => ([], t)
  | r :: rest => (if r.length = count then r else [], { t with reads := rest })

/-- The loop body of `Tiny._waitFor` (lines 53-62), on the transport's
pending-read list.  `c` is the Python local `count`.  Each iteration reads
5 bytes (collapsed to `[]` if short), returns `false` on an empty read,
`true` on a read equal to `msg` (when `msg` is truthy, i.e. nonempty), and
otherwise increments `count`, giving up with `false` once `count > 20`. -/
def waitForGo (msg : List Nat) : Nat → List (List Nat) → Bool × List (List Nat)
  | _, [] => (false, [])
  | c, r :: rest =>
    let rcv := if r.length = 5 then r else []
    if rcv = [] then (false, rest)
    else if msg ≠ [] ∧ msg = rcv then (true, rest)
    else if c + 1 > 20 then (false, rest)
    else waitForGo msg (c + 1) rest

/-- `Tiny._waitFor` (lines 51-62): read from the port until timeout or
until `msg` is received, starting with `count = 0`.  Returns the result
together with the remaining pending reads. -/
def waitFor (msg : List Nat) (reads : List (List Nat)) : Bool × List (List Nat) :=
  waitForGo msg 0 reads

/-- Big-endian 32-bit encoding, as `struct.pack('>L', n)` for
`0 ≤ n < 2^32`. -/
def be32 (n : Nat) : List Nat :=
  [n / 0x1000000 % 256, n / 0x10000 % 256, n / 0x100 % 256, n % 256]

/-- Big-endian 32-bit decoding, as `struct.unpack('>L', frame[1:5])`
(line 112). -/
def be32val (b1 b2 b3 b4 : Nat) : Nat :=
  ((b1 * 256 + b2) * 256 + b3) * 256 + b4

/-- Python's `x & (2^k - 1)` on an arbitrary (possibly negative) integer:
the nonnegative remainder of `x` modulo `2^k`. -/
def mask (x : Int) (k : Nat) : Nat :=
  (x % (2 ^ k : Int)).toNat

/-- `Tiny.resetClock` (lines 64-71): build the 5-byte command
`00` + big-endian `ack` and send it; wait for the identical buffer as the
acknowledgement when `ack` is nonzero.  `struct.pack_into('>L', cmd, 1, ack)`
raises `struct.error` when `ack` is negative or `≥ 2^32`; that failure
(nothing written) is `none`. -/
def resetClock (ack : Int) (t : Transport) : Option (Bool × Transport) :=
  if 0 ≤ ack ∧ ack < 2 ^ 32 then
    let cmd := 0 :: be32 ack.toNat
    let t1 := twrite cmd t
    if ack ≠ 0 then
      let res := waitFor cmd t1.reads
      some (res.1, { t1 with reads := res.2 })
    else some (true, t1)
  else none

/-- The 6-byte alignment probe `b'\x10\xe0\x7f\x0f\x55\x2a'` (line 82). -/
def alignCmd : List Nat := [0x10, 0xE0, 0x7F, 0x0F, 0x55, 0x2A]

/-- The loop of `Tiny.align` (lines 83-93).  `count` is the Python local;
the loop runs while not aligned, breaking after the attempt that takes
`count` past 5 (logging an error).  `fuel` is a structural bound kept equal
to `6 - count`; the `fuel = 0` branch is unreachable from `align`, where
the loop always stops at `count = 6`. -/
def alignLoop : Nat → Nat → Transport → Bool × Transport
  | 0, _, t => (false, t)
  | fuel + 1, count, t =>
    let t1 := twrite alignCmd t
    let res := waitFor (List.drop 1 alignCmd) t1.reads
    let t2 := { t1 with reads := res.2 }
    if res.1 then (true, t2)
    else if count + 1 > 5 then (false, { t2 with errors := t2.errors + 1 })
    else alignLoop fuel (count + 1) t2

/-- `Tiny.align` (lines 73-94): repeatedly write the 6-byte probe and wait
for its trailing 5 bytes, starting from `count = 0`. -/
def align (t : Transport) : Bool × Transport :=
  alignLoop 6 0 t

/-- Python's `round` on a finite float value (modelled exactly as a
rational): round half to even. -/
def pyRound (q : ℚ) : Int :=
  let f := ⌊q⌋
  let r := q - f
  if r < 1 / 2 then f
  else if 1 / 2 < r then f + 1
  else if f % 2 = 0 then f else f + 1

/-- Ticks to seconds: `boxClock / TINYRATE` (line 113). -/
def ticksToSeconds (t : Nat) : ℚ :=
  (t : ℚ) / (TINYRATE : ℚ)

/-- Seconds to ticks: `int(round(clock * TINYRATE)) & 0xffffffff`
(lines 177-179). -/
def secondsToTicks (x : ℚ) : Nat :=
  mask (pyRound (x * (TINYRATE : ℚ))) 32

/-- The decoded messages of `Tiny.readMsg` (lines 96-145).  The Python
tuples are represented structurally: the formatted strings `'PA:%02X'`,
`'PB:%02X'`, `'2:%02X'`, `'3:%02X'` and `frame[1:].hex()` are carried as
their numeric payloads. -/
inductive Msg where
  | clock (tick : Nat) (time : ℚ)
  | input1 (time : ℚ)
  | input2 (sub : Nat) (time : ℚ)
  | input3 (sub : Nat) (time : ℚ)
  | setports (pa pb : Nat)
  | setportb (pb : Nat)
  | reset (payload : List Nat)
  | schedule (pa : Nat) (time : ℚ)
  | unknown (raw : List Nat)
deriving DecidableEq, Repr

/-- The decode chain of `Tiny.readMsg` (lines 111-141) on the five bytes
of a complete frame: `msgType = frame[0] & 0xf0` is tested against
`_CLOCK = 0x10`, `_INPUT1 = 0x20`, `_INPUT2 = 0x40`, `_INPUT3 = 0x80`,
then `frame[0]` against `_OUTPUT = 0x04` and `0x00`, then
`frame[0] & 0xe0 == 0xe0`, else unknown. -/
def decodeFrame (b0 b1 b2 b3 b4 : Nat) : Msg :=
  let msgType := b0 &&& 0xf0
  let boxClock := be32val b1 b2 b3 b4
  let boxTime := ticksToSeconds boxClock
  if msgType = 0x10 then .clock boxClock boxTime
  else if msgType = 0x20 then .input1 boxTime
  else if msgType = 0x40 then .input2 (b0 &&& 0xe) boxTime
  else if msgType = 0x80 then .input3 (b0 &&& 0x7) boxTime
  else if b0 = 0x04 then
    if b3 &&& 0x80 ≠ 0 then .setports (b3 &&& 0x1f) b1
    else .setportb b1
  else if b0 = 0x00 then .reset [b1, b2, b3, b4]
  else if b0 &&& 0xe0 = 0xe0 then .schedule (b0 &&& 0x1f) boxTime
  else .unknown [b0, b1, b2, b3, b4]

/-- The guard `if frame and len(frame) == 5` of `Tiny.readMsg` (line 110):
only a frame of exactly 5 bytes is decoded, anything else yields no
message. -/
def decode5 : List Nat → Option Msg
  | [b0, b1, b2, b3, b4] => some (decodeFrame b0 b1 b2 b3 b4)
  | _ => none

/-- `Tiny.readMsg` (lines 96-145): one 5-byte read, decoded when complete,
`none` on a short or empty read. -/
def readMsg (t : Transport) : Option Msg × Transport :=
  let res := tread 5 t
  (decode5 res.1, res.2)

/-- The frame built by `Tiny.setPorts` (lines 147-153):
`[0x04, pb & 0xff, 0, 0x80 | (pa & 0x1f), 0]`. -/
def setPortsCmd (pa pb : Int) : List Nat :=
  [0x04, mask pb 8, 0, 0x80 ||| mask pa 5, 0]

/-- `Tiny.setPorts`: build the frame and send it. -/
def setPorts (pa pb : Int) (t : Transport) : Transport :=
  twrite (setPortsCmd pa pb) t

/-- The frame built by `Tiny.setPortB` (lines 155-160):
`[0x04, pb & 0xff, 0, 0, 0]`. -/
def setPortBCmd (pb : Int) : List Nat :=
  [0x04, mask pb 8, 0, 0, 0]

/-- `Tiny.setPortB`: build the frame and send it. -/
def setPortB (pb : Int) (t : Transport) : Transport :=
  twrite (setPortBCmd pb) t

/-- The frame sent by `Tiny.schedulePortA` for an integer clock value
(lines 174-179): `0xe0 | (pa & 0x1f)` followed by the big-endian
`clock & 0xffffffff`. -/
def scheduleCmd (pa clock : Int) : List Nat :=
  (0xE0 ||| mask pa 5) :: be32 (mask clock 32)

/-- The `clock` argument of `Tiny.schedulePortA`: a Python `int`, a finite
Python `float` (an exact rational), or any value of another type. -/
inductive ClockArg where
  | int (n : Int)
  | float (x : ℚ)
  | other
deriving DecidableEq, Repr

/-- `Tiny.schedulePortA` (lines 162-182): a float clock is first converted
by `int(round(clock * TINYRATE))`; an int clock is masked to 32 bits and
sent; any other type only logs `'Invalid clock %r'` and sends nothing. -/
def schedulePortA (pa : Int) (clock : ClockArg) (t : Transport) : Transport :=
  match clock with
  | .int n => twrite (scheduleCmd pa n) t
  | .float x => twrite ((0xE0 ||| mask pa 5) :: be32 (secondsToTicks x)) t
  | .other => { t with errors := t.errors + 1 }

end Tiny

/-! ## Helper lemmas -/

namespace Tiny

lemma waitForGo_skip (m : List Nat) (l : List (List Nat)) :
    ∀ (c : Nat) (rest : List (List Nat)),
      (∀ r ∈ l, r.length = 5 ∧ r ≠ m) → c + l.length ≤ 20 →
      waitForGo m c (l ++ rest) = waitForGo m (c + l.length) rest := by
  induction l with
  | nil => intro c rest _ _; simp
  | cons r l ih =>
    intro c rest hl hc
    obtain ⟨hr5, hrm⟩ := hl r (List.mem_cons_self r l)
    have hrne : r ≠ [] := by intro he; subst he; simp at hr5
    have hmr : m ≠ r := Ne.symm hrm
    have hc1 : ¬(c + 1 > 20) := by simp at hc; omega
    have step : waitForGo m c ((r :: l) ++ rest) = waitForGo m (c + 1) (l ++ rest) := by
      simp only [List.cons_append, waitForGo, hr5, if_pos, hrne, if_neg, hmr, hc1]
      simp [hrne, hmr, hc1]
    rw [step, ih (c + 1) rest (fun r hr => hl r (List.mem_cons_of_mem _ hr))
      (by simp at hc ⊢; omega)]
    congr 1
    simp
    omega

lemma waitForGo_match (m : List Nat) (hm : m.length = 5) (c : Nat) (rest : List (List Nat)) :
    waitForGo m c (m :: rest) = (true, rest) := by
  have hmne : m ≠ [] := by intro he; subst he; simp at hm
  simp [waitForGo, hm, hmne]

lemma waitForGo_giveup (m x : List Nat) (hx5 : x.length = 5) (hxm : x ≠ m)
    (c : Nat) (hc : c + 1 > 20) (rest : List (List Nat)) :
    waitForGo m c (x :: rest) = (false, rest) := by
  have hxne : x ≠ [] := by intro he; subst he; simp at hx5
  have hmx : m ≠ x := Ne.symm hxm
  simp [waitForGo, hx5, hxne, hmx, hc]

lemma waitForGo_no_match (m : List Nat) :
    ∀ (reads : List (List Nat)) (c : Nat),
      (∀ r ∈ reads, r ≠ m) →
      ∃ n, waitForGo m c reads = (false, reads.drop n) := by
  intro reads
  induction reads with
  | nil => intro c _; exact ⟨0, rfl⟩
  | cons r rest ih =>
    intro c hno
    by_cases hr5 : r.length = 5
    · have hrm : r ≠ m := hno r (List.mem_cons_self r rest)
      have hrne : r ≠ [] := by intro he; subst he; simp at hr5
      have hmr : m ≠ r := Ne.symm hrm
      by_cases hc : c + 1 > 20
      · exact ⟨1, by simp [waitForGo, hr5, hrne, hmr, hc]⟩
      · obtain ⟨n, hn⟩ := ih (c + 1) (fun x hx => hno x (List.mem_cons_of_mem _ hx))
        refine ⟨n + 1, ?_⟩
        rw [show (r :: rest).drop (n + 1) = rest.drop n from rfl, ← hn]
        simp [waitForGo, hr5, hrne, hmr, hc]
    · refine ⟨1, ?_⟩
      by_cases hrne : r = []
      · subst hrne; simp [waitForGo]
      · simp [waitForGo, hr5, hrne]

lemma alignLoop_no_match :
    ∀ (fuel count : Nat) (t : Transport), count + fuel = 6 → 0 < fuel →
      (∀ r ∈ t.reads, r ≠ List.drop 1 alignCmd) →
      ∃ n, alignLoop fuel count t =
        (false, ⟨t.reads.drop n, t.writes ++ List.replicate fuel alignCmd, t.errors + 1⟩) := by
  intro fuel
  induction fuel with
  | zero => intro count t _ h2 _; omega
  | succ f ih =>
    intro count t hcf _ hno
    obtain ⟨n1, hn1⟩ := waitForGo_no_match (List.drop 1 alignCmd) t.reads 0 hno
    by_cases hcount : count + 1 > 5
    · refine ⟨n1, ?_⟩
      have hf : f = 0 := by omega
      subst hf
      simp only [alignLoop, twrite, waitFor, hn1, hcount, if_pos, if_neg]
      simp
    · have hf : 0 < f := by omega
      obtain ⟨n2, hn2⟩ := ih (count + 1) ⟨t.reads.drop n1, t.writes ++ [alignCmd], t.errors⟩
        (by omega) hf
        (fun r hr => hno r (List.drop_subset n1 t.reads hr))
      refine ⟨n1 + n2, ?_⟩
      have step : alignLoop (f + 1) count t =
          alignLoop f (count + 1) ⟨t.reads.drop n1, t.writes ++ [alignCmd], t.errors⟩ := by
        simp only [alignLoop, twrite, waitFor, hn1, hcount]
        simp
      rw [step, hn2]
      simp [List.drop_drop, List.replicate_succ, List.append_assoc, Nat.add_comm]

lemma pyRound_natCast (t : Nat) : pyRound (t : ℚ) = t := by
  unfold pyRound
  rw [Int.floor_natCast]
  norm_num

lemma ticksToSeconds_mul (t : Nat) : ticksToSeconds t * (TINYRATE : ℚ) = t := by
  unfold ticksToSeconds
  rw [div_mul_cancel₀]
  norm_num [TINYRATE]

lemma secondsToTicks_ticksToSeconds (t : Nat) :
    secondsToTicks (ticksToSeconds t) = t % 2 ^ 32 := by
  unfold secondsToTicks
  rw [ticksToSeconds_mul, pyRound_natCast]
  unfold mask
  omega

lemma mask_natCast_eq (n k : Nat) (h : n < 2 ^ k) : mask (n : Int) k = n := by
  unfold mask
  rw [Int.emod_eq_of_lt (by positivity) (by exact_mod_cast h)]
  exact Int.toNat_natCast n

lemma mask_lt (x : Int) (k : Nat) : mask x k < 2 ^ k := by
  have h1 : (0 : Int) < (2 : Int) ^ k := by positivity
  have h2 := Int.emod_lt_of_pos x h1
  have h3 := Int.emod_nonneg x (ne_of_gt h1)
  have h4 : ((mask x k : Nat) : Int) = x % ((2 : Int) ^ k) := Int.toNat_of_nonneg h3
  have h5 : ((mask x k : Nat) : Int) < (2 : Int) ^ k := by rw [h4]; exact h2
  exact_mod_cast h5

lemma mask_emod_pow (x : Int) (k : Nat) : mask (x % 2 ^ k) k = mask x k := by
  unfold mask
  rw [Int.emod_emod_of_dvd x dvd_rfl]

lemma be32val_components (n : Nat) (h : n < 2 ^ 32) :
    be32val (n / 0x1000000 % 256) (n / 0x10000 % 256) (n / 0x100 % 256) (n % 256) = n := by
  unfold be32val
  omega

lemma be32_mem_lt (v : Nat) : ∀ b ∈ be32 v, b < 256 := by
  intro b hb
  simp [be32] at hb
  rcases hb with h | h | h | h <;> omega

lemma or80_lt (m : Nat) (h : m < 32) : 0x80 ||| m < 256 := by
  interval_cases m <;> decide

lemma orE0_lt (m : Nat) (h : m < 32) : 0xE0 ||| m < 256 := by
  interval_cases m <;> decide

lemma decode_output_set (pa b1 b2 b4 : Nat) (h : pa < 32) :
    decodeFrame 0x04 b1 b2 (0x80 ||| pa) b4 = .setports pa b1 := by
  interval_cases pa <;> rfl

lemma decode_schedule (pa b1 b2 b3 b4 : Nat) (h : pa < 32) :
    decodeFrame (0xE0 ||| pa) b1 b2 b3 b4
      = .schedule pa (ticksToSeconds (be32val b1 b2 b3 b4)) := by
  interval_cases pa <;> rfl

end Tiny

/-! ## Claim theorems -/

namespace Tiny

/-- C1 (counterexample): the claim states that a transport which first
returns the matching frame on the 21st read makes `_waitFor` fail; in fact
the code succeeds there, because the loop gives up only after `count`
exceeds 20, i.e. after 21 non-matching frames.  Concretely, with 20
non-matching 5-byte frames followed by the expected pattern, the wait
returns success. -/
theorem C1_counterexample :
    waitFor [0xE0, 0x7F, 0x0F, 0x55, 0x2A]
      (List.replicate 20 [1, 2, 3, 4, 5] ++ [[0xE0, 0x7F, 0x0F, 0x55, 0x2A]])
      = (true, []) := by
  decide

/-- C1 (amended): the bounded wait returns success when a 5-byte read equal
to the expected pattern occurs before termination; it fails immediately on
a fully empty read; and it fails once 21 frames have been read without a
match — a transport that first returns the matching frame on the 21st read
(after up to 20 non-matching frames) succeeds, and one whose first 21 reads
are non-matching frames fails without reading further. -/
theorem C1_waitFor_bounds :
    (∀ (m : List Nat) (rest : List (List Nat)),
      waitFor m ([] :: rest) = (false, rest))
    ∧ (∀ (m : List Nat) (l : List (List Nat)) (rest : List (List Nat)),
        m.length = 5 → (∀ r ∈ l, r.length = 5 ∧ r ≠ m) → l.length ≤ 20 →
        waitFor m (l ++ m :: rest) = (true, rest))
    ∧ (∀ (m : List Nat) (l : List (List Nat)) (rest : List (List Nat)),
        m.length = 5 → (∀ r ∈ l, r.length = 5 ∧ r ≠ m) → l.length = 21 →
        waitFor m (l ++ rest) = (false, rest)) := by
  refine ⟨?_, ?_, ?_⟩
  · intro m rest
    simp [waitFor, waitForGo]
  · intro m l rest hm hl hlen
    unfold waitFor
    rw [waitForGo_skip m l 0 (m :: rest) hl (by omega), Nat.zero_add]
    exact waitForGo_match m hm l.length rest
  · intro m l rest hm hl hlen
    have hlne : l ≠ [] := by intro h; subst h; simp at hlen
    have hsplit := List.dropLast_append_getLast hlne
    have hx_mem : l.getLast hlne ∈ l := List.getLast_mem hlne
    obtain ⟨hx5, hxm⟩ := hl _ hx_mem
    have hlen20 : l.dropLast.length = 20 := by
      simp [List.length_dropLast, hlen]
    have hl20 : ∀ r ∈ l.dropLast, r.length = 5 ∧ r ≠ m := by
      intro r hr
      exact hl r (by rw [← hsplit]; exact List.mem_append_left _ hr)
    unfold waitFor
    rw [← hsplit, List.append_assoc, List.singleton_append,
      waitForGo_skip m l.dropLast 0 _ hl20 (by omega), hlen20]
    exact waitForGo_giveup m _ hx5 hxm 20 (by omega) rest

/-- C1 (witness): with one non-matching frame then the pattern, the wait
succeeds and consumes both reads. -/
theorem C1_witness :
    waitFor [1, 2, 3, 4, 5] (List.replicate 20 [9, 9, 9, 9, 9] ++ [1, 2, 3, 4, 5] :: [])
      = (true, []) :=
  C1_waitFor_bounds.2.1 [1, 2, 3, 4, 5] (List.replicate 20 [9, 9, 9, 9, 9]) []
    (by decide)
    (by
      intro r hr
      rw [List.eq_of_mem_replicate hr]
      exact ⟨by decide, by decide⟩)
    (by simp)

/-- C2: the alignment procedure writes the fixed 6-byte probe
`10 E0 7F 0F 55 2A` and waits for its trailing 5 bytes `E0 7F 0F 55 2A`;
if the transport yields the correct echo on attempt `k` (`1 ≤ k ≤ 6`, the
earlier attempts timing out), `align` succeeds having written the probe
`k` times; if no pending read ever equals the expected echo, `align` fails
after exactly 6 probe writes and no more, logging one error. -/
theorem C2_align_procedure :
    alignCmd = [0x10, 0xE0, 0x7F, 0x0F, 0x55, 0x2A]
    ∧ List.drop 1 alignCmd = [0xE0, 0x7F, 0x0F, 0x55, 0x2A]
    ∧ (∀ (k : Nat) (rest : List (List Nat)), 1 ≤ k → k ≤ 6 →
        align ⟨List.replicate (k - 1) [] ++ List.drop 1 alignCmd :: rest, [], 0⟩
          = (true, ⟨rest, List.replicate k alignCmd, 0⟩))
    ∧ (∀ t : Transport, (∀ r ∈ t.reads, r ≠ List.drop 1 alignCmd) →
        ∃ n, align t =
          (false, ⟨t.reads.drop n, t.writes ++ List.replicate 6 alignCmd, t.errors + 1⟩)) := by
  refine ⟨rfl, rfl, ?_, ?_⟩
  · intro k rest h1 h6
    interval_cases k <;> rfl
  · intro t hno
    exact alignLoop_no_match 6 0 t rfl (by norm_num) hno

/-- C2 (witness): with two timeouts then the correct echo, alignment
succeeds on the third attempt, having written the probe three times. -/
theorem C2_witness :
    align ⟨List.replicate 2 [] ++ List.drop 1 alignCmd :: [], [], 0⟩
      = (true, ⟨[], List.replicate 3 alignCmd, 0⟩) :=
  C2_align_procedure.2.2.1 3 [] (by decide) (by decide)

end Tiny

namespace Tiny

/-- C3: decoding a 5-byte frame follows the priority-ordered rules of the
decode table.  For the boundary values of byte 0: `0x20` is input channel 1,
`0x40` is input channel 2 (sub-code `0x40 & 0x0e = 0`), `0x80` is input
channel 3 (sub-code `0x80 & 7 = 0`), `0xE0` is a scheduled output on port
`0`, `0x04` is the output-port echo (PortsSet when bit `0x80` of byte 3 is
set, otherwise PortBSet), `0x00` is a reset echo; a byte-0 value matching
no rule (here `0x30`) decodes to Unknown with the raw bytes; `0xE4` decodes
per its highest-priority matching rule, the scheduled-output rule with
port `0xE4 & 0x1f = 4`; and the heartbeat frame `10 00 01 00 02` decodes
to tick `0x00010002` with time `tick / 156250`. -/
theorem C3_decode_rules :
    (∀ b1 b2 b3 b4 : Nat,
      decodeFrame 0x20 b1 b2 b3 b4 = .input1 (ticksToSeconds (be32val b1 b2 b3 b4))
      ∧ decodeFrame 0x40 b1 b2 b3 b4 = .input2 0 (ticksToSeconds (be32val b1 b2 b3 b4))
      ∧ decodeFrame 0x80 b1 b2 b3 b4 = .input3 0 (ticksToSeconds (be32val b1 b2 b3 b4))
      ∧ decodeFrame 0xE0 b1 b2 b3 b4 = .schedule 0 (ticksToSeconds (be32val b1 b2 b3 b4))
      ∧ decodeFrame 0x04 b1 b2 b3 b4 =
          (if b3 &&& 0x80 ≠ 0 then .setports (b3 &&& 0x1f) b1 else .setportb b1)
      ∧ decodeFrame 0x00 b1 b2 b3 b4 = .reset [b1, b2, b3, b4]
      ∧ decodeFrame 0xE4 b1 b2 b3 b4 = .schedule 4 (ticksToSeconds (be32val b1 b2 b3 b4))
      ∧ decodeFrame 0x30 b1 b2 b3 b4 = .unknown [0x30, b1, b2, b3, b4])
    ∧ decodeFrame 0x10 0x00 0x01 0x00 0x02
        = .clock 0x00010002 ((0x00010002 : ℚ) / 156250) := by
  constructor
  · intro b1 b2 b3 b4
    exact ⟨rfl, rfl, rfl, rfl, rfl, rfl, rfl, rfl⟩
  · show Msg.clock (be32val 0 1 0 2) (ticksToSeconds (be32val 0 1 0 2)) = _
    norm_num [be32val, ticksToSeconds, TINYRATE]

/-- C4: `resetClock(ack)` sends the 5-byte frame `00` followed by the
big-endian 32-bit `ack`; for nonzero `ack` it performs the bounded wait for
a reply identical to the sent buffer and returns its outcome; for `ack = 0`
it returns success without consuming any read.  In particular
`resetClock 0xCAFEBEEF` sends `00 CA FE BE EF` and is acknowledged when the
transport echoes those 5 bytes on the first read. -/
theorem C4_resetClock_spec :
    (∀ (ack : Nat) (t : Transport), 0 < ack → ack < 2 ^ 32 →
      resetClock (ack : Int) t
        = some ((waitFor (0 :: be32 ack) t.reads).1,
            ⟨(waitFor (0 :: be32 ack) t.reads).2, t.writes ++ [0 :: be32 ack], t.errors⟩))
    ∧ (∀ t : Transport,
        resetClock 0 t = some (true, ⟨t.reads, t.writes ++ [[0, 0, 0, 0, 0]], t.errors⟩))
    ∧ resetClock 0xCAFEBEEF ⟨[[0x00, 0xCA, 0xFE, 0xBE, 0xEF]], [], 0⟩
        = some (true, ⟨[], [[0x00, 0xCA, 0xFE, 0xBE, 0xEF]], 0⟩) := by
  refine ⟨?_, ?_, by decide⟩
  · intro ack t h0 h32
    have hcond : (0 ≤ (ack : Int) ∧ (ack : Int) < 2 ^ 32) :=
      ⟨Int.ofNat_nonneg ack, by exact_mod_cast h32⟩
    have hne : (ack : Int) ≠ 0 := by exact_mod_cast Nat.pos_iff_ne_zero.mp h0
    unfold resetClock
    rw [if_pos hcond, if_pos hne]
    simp [twrite]
  · intro t
    rfl

/-- C4 (witness): `resetClock 1` on an exhausted transport sends
`00 00 00 00 01` and times out waiting for the acknowledgement. -/
theorem C4_witness :
    resetClock 1 ⟨[], [], 0⟩ = some (false, ⟨[], [[0, 0, 0, 0, 1]], 0⟩) := by
  have h := C4_resetClock_spec.1 1 ⟨[], [], 0⟩ (by decide) (by decide)
  exact h

/-- C5: `setPorts(pa := 0x1f, pb := 0xff)` writes exactly the frame
`04 FF 00 9F 00`, and decoding that frame yields PortsSet with
`port_a = 0x1f` and `port_b = 0xff`; in general a frame with byte 0 equal
to `0x04` decodes to PortsSet with `port_a = byte3 & 0x1f` and
`port_b = byte1` when bit `0x80` of byte 3 is set, and to PortBSet with
`port_b = byte1` otherwise. -/
theorem C5_setPorts_spec :
    setPortsCmd 0x1f 0xff = [0x04, 0xFF, 0x00, 0x9F, 0x00]
    ∧ (∀ t : Transport,
        (setPorts 0x1f 0xff t).writes = t.writes ++ [[0x04, 0xFF, 0x00, 0x9F, 0x00]])
    ∧ decode5 [0x04, 0xFF, 0x00, 0x9F, 0x00] = some (.setports 0x1f 0xff)
    ∧ (∀ b1 b2 b3 b4 : Nat,
        (b3 &&& 0x80 ≠ 0 → decodeFrame 0x04 b1 b2 b3 b4 = .setports (b3 &&& 0x1f) b1)
        ∧ (b3 &&& 0x80 = 0 → decodeFrame 0x04 b1 b2 b3 b4 = .setportb b1)) := by
  refine ⟨by decide, fun t => rfl, by decide, ?_⟩
  intro b1 b2 b3 b4
  have hd : decodeFrame 0x04 b1 b2 b3 b4
      = (if b3 &&& 0x80 ≠ 0 then Msg.setports (b3 &&& 0x1f) b1 else Msg.setportb b1) := rfl
  constructor
  · intro h; rw [hd, if_pos h]
  · intro h; rw [hd, if_neg (by simp [h])]

/-- C5 (witness): a frame `04 12 00 9F 00` decodes to PortsSet with
`port_a = 0x1f` and `port_b = 0x12`. -/
theorem C5_witness :
    decodeFrame 0x04 0x12 0x00 0x9F 0x00 = .setports 0x1f 0x12 :=
  (C5_setPorts_spec.2.2.2 0x12 0x00 0x9F 0x00).1 (by decide)

/-- C6: for every command variant with in-range field values, decoding the
5-byte buffer produced by encoding the command recovers the corresponding
event with identical field values: ResetClock yields a reset echo whose
payload is the big-endian `ack` (recoverable as the original value);
SetPorts and SetPortB yield PortsSet/PortBSet with the same ports;
ScheduleOutput yields a scheduled output on the same port whose time is
`at / 156250`, from which the tick `at` is recovered exactly. -/
theorem C6_roundTrip :
    ∀ ack pa pb tk : Nat, ack < 2 ^ 32 → pa < 32 → pb < 256 → tk < 2 ^ 32 →
      (decode5 (0 :: be32 ack) = some (.reset (be32 ack))
        ∧ be32val (ack / 0x1000000 % 256) (ack / 0x10000 % 256)
            (ack / 0x100 % 256) (ack % 256) = ack)
      ∧ decode5 (setPortsCmd (pa : Int) (pb : Int)) = some (.setports pa pb)
      ∧ decode5 (setPortBCmd (pb : Int)) = some (.setportb pb)
      ∧ (decode5 (scheduleCmd (pa : Int) (tk : Int))
            = some (.schedule pa (ticksToSeconds tk))
        ∧ secondsToTicks (ticksToSeconds tk) = tk) := by
  intro ack pa pb tk hack hpa hpb htk
  have hmpa : mask (pa : Int) 5 = pa := mask_natCast_eq pa 5 hpa
  have hmpb : mask (pb : Int) 8 = pb := mask_natCast_eq pb 8 hpb
  have hmtk : mask (tk : Int) 32 = tk := mask_natCast_eq tk 32 htk
  refine ⟨⟨rfl, be32val_components ack hack⟩, ?_, ?_, ?_, ?_⟩
  · have h1 : setPortsCmd (pa : Int) (pb : Int) = [0x04, pb, 0, 0x80 ||| pa, 0] := by
      simp [setPortsCmd, hmpa, hmpb]
    rw [h1]
    show some (decodeFrame 0x04 pb 0 (0x80 ||| pa) 0) = _
    rw [decode_output_set pa pb 0 0 hpa]
  · have h1 : setPortBCmd (pb : Int) = [0x04, pb, 0, 0, 0] := by
      simp [setPortBCmd, hmpb]
    rw [h1]
    rfl
  · have h1 : scheduleCmd (pa : Int) (tk : Int) = (0xE0 ||| pa) :: be32 tk := by
      simp [scheduleCmd, hmpa, hmtk]
    rw [h1]
    show some (decodeFrame (0xE0 ||| pa) (tk / 0x1000000 % 256) (tk / 0x10000 % 256)
      (tk / 0x100 % 256) (tk % 256)) = _
    rw [decode_schedule pa _ _ _ _ hpa, be32val_components tk htk]
  · rw [secondsToTicks_ticksToSeconds, Nat.mod_eq_of_lt htk]

/-- C6 (witness): concrete round trips for all four command variants at
`ack = 5`, `pa = 31`, `pb = 255`, `at = 1000`. -/
theorem C6_witness :
    decode5 (setPortsCmd 31 255) = some (.setports 31 255)
    ∧ decode5 (scheduleCmd 31 1000) = some (.schedule 31 (ticksToSeconds 1000)) :=
  ⟨(C6_roundTrip 5 31 255 1000 (by norm_num) (by norm_num) (by norm_num)
      (by norm_num)).2.1,
   (C6_roundTrip 5 31 255 1000 (by norm_num) (by norm_num) (by norm_num)
      (by norm_num)).2.2.2.1⟩

end Tiny

namespace Tiny

/-- C7: for a clock argument that is neither an integer tick value nor a
(finite) float seconds value, `schedulePortA` fails loudly — it logs an
error — and writes no frame to the transport; for every integer or float
argument it writes exactly one 5-byte frame whose first byte is
`0xE0 | (pa & 0x1f)`. -/
theorem C7_schedule_clock_types :
    ∀ (pa : Int) (t : Transport),
      (schedulePortA pa .other t = { t with errors := t.errors + 1 }
        ∧ (schedulePortA pa .other t).writes = t.writes)
      ∧ (∀ n : Int,
          (schedulePortA pa (.int n) t).writes
              = t.writes ++ [(0xE0 ||| mask pa 5) :: be32 (mask n 32)]
          ∧ ((0xE0 ||| mask pa 5) :: be32 (mask n 32)).length = 5)
      ∧ (∀ x : ℚ,
          (schedulePortA pa (.float x) t).writes
              = t.writes ++ [(0xE0 ||| mask pa 5) :: be32 (secondsToTicks x)]
          ∧ ((0xE0 ||| mask pa 5) :: be32 (secondsToTicks x)).length = 5) := by
  intro pa t
  exact ⟨⟨rfl, rfl⟩, fun n => ⟨rfl, rfl⟩, fun x => ⟨rfl, rfl⟩⟩

/-- C8: the clock model converts ticks to seconds by dividing by the tick
rate 156250, converts seconds to ticks by rounding `x * 156250` and
truncating to 32 bits (always in range — silent wraparound, never an
error), and converting a 32-bit tick value to seconds and back recovers it
exactly (in particular within 1 tick); a value at `2^32 + 5` ticks worth of
seconds wraps to 5. -/
theorem C8_clock_conversions :
    TINYRATE = 156250
    ∧ (∀ t : Nat, ticksToSeconds t = (t : ℚ) / 156250)
    ∧ (∀ x : ℚ, secondsToTicks x = mask (pyRound (x * 156250)) 32
        ∧ secondsToTicks x < 2 ^ 32)
    ∧ (∀ t : Nat, t < 2 ^ 32 →
        secondsToTicks (ticksToSeconds t) = t
        ∧ ((secondsToTicks (ticksToSeconds t) : Int) - (t : Int)).natAbs ≤ 1)
    ∧ secondsToTicks (ticksToSeconds (2 ^ 32 + 5)) = 5 := by
  refine ⟨rfl, ?_, ?_, ?_, ?_⟩
  · intro t
    norm_num [ticksToSeconds, TINYRATE]
  · intro x
    refine ⟨?_, mask_lt _ 32⟩
    norm_num [secondsToTicks, TINYRATE]
  · intro t ht
    have h := secondsToTicks_ticksToSeconds t
    rw [Nat.mod_eq_of_lt ht] at h
    exact ⟨h, by rw [h]; simp⟩
  · rw [secondsToTicks_ticksToSeconds]
    norm_num

/-- C8 (witness): one second and one tick, `156251` ticks, survives the
seconds round trip exactly. -/
theorem C8_witness :
    secondsToTicks (ticksToSeconds 156251) = 156251 :=
  (C8_clock_conversions.2.2.2.1 156251 (by norm_num)).1

/-- C9: during a bounded wait, a partial read of 1 to 4 bytes is treated
exactly like a zero-byte timeout: the internal read collapses it to an
empty result (discarding the partial bytes), and the wait — whatever the
current retry count — terminates immediately with failure instead of
counting the read or continuing. -/
theorem C9_partial_read :
    ∀ (m r : List Nat) (c : Nat) (rest w : List (List Nat)) (e : Nat),
      1 ≤ r.length → r.length ≤ 4 →
      tread 5 ⟨r :: rest, w, e⟩ = ([], ⟨rest, w, e⟩)
      ∧ waitForGo m c (r :: rest) = (false, rest)
      ∧ waitFor m (r :: rest) = (false, rest) := by
  intro m r c rest w e h1 h4
  have hr5 : ¬(r.length = 5) := by omega
  refine ⟨?_, ?_, ?_⟩
  · simp [tread, hr5]
  · simp [waitForGo, hr5]
  · simp [waitFor, waitForGo, hr5]

/-- C9 (witness): a 3-byte partial read fails the wait immediately, even
with the retry count already at 7, and reads as empty. -/
theorem C9_witness :
    tread 5 ⟨[[1, 2, 3]], [], 0⟩ = ([], ⟨[], [], 0⟩)
    ∧ waitForGo [1, 2, 3, 4, 5] 7 [[1, 2, 3]] = (false, [])
    ∧ waitFor [1, 2, 3, 4, 5] [[1, 2, 3]] = (false, []) :=
  C9_partial_read [1, 2, 3, 4, 5] [1, 2, 3] 7 [] [] 0 (by decide) (by decide)

/-- C10 (counterexample): the claim states that for every integer argument
`resetClock` writes a 5-byte frame with the ack value reduced modulo
`2^32`; in fact `struct.pack_into('>L', ...)` raises for `ack = 2^32`
(there is no masking in `resetClock`), so nothing is written at all. -/
theorem C10_counterexample :
    resetClock (4294967296 : Int) ⟨[], [], 0⟩ = none := by
  decide

/-- C10 (amended): `setPorts`, `setPortB` and `schedulePortA` write, for
every integer argument including out-of-range and negative values, exactly
one well-formed 5-byte frame with port A reduced modulo 32, port B modulo
256 and the tick modulo `2^32`; `resetClock` writes its well-formed 5-byte
frame only for `0 ≤ ack < 2^32`, and for any other integer raises an error
before writing anything. -/
theorem C10_encode_wellformed :
    (∀ (pa pb : Int) (t : Transport),
      (setPorts pa pb t).writes = t.writes ++ [setPortsCmd pa pb]
      ∧ (setPortsCmd pa pb).length = 5
      ∧ (∀ b ∈ setPortsCmd pa pb, b < 256)
      ∧ setPortsCmd pa pb = setPortsCmd (pa % 32) (pb % 256))
    ∧ (∀ (pb : Int) (t : Transport),
      (setPortB pb t).writes = t.writes ++ [setPortBCmd pb]
      ∧ (setPortBCmd pb).length = 5
      ∧ (∀ b ∈ setPortBCmd pb, b < 256)
      ∧ setPortBCmd pb = setPortBCmd (pb % 256))
    ∧ (∀ (pa n : Int) (t : Transport),
      (schedulePortA pa (.int n) t).writes = t.writes ++ [scheduleCmd pa n]
      ∧ (scheduleCmd pa n).length = 5
      ∧ (∀ b ∈ scheduleCmd pa n, b < 256)
      ∧ scheduleCmd pa n = scheduleCmd (pa % 32) (n % 2 ^ 32))
    ∧ (∀ (ack : Int) (t : Transport), 0 ≤ ack → ack < 2 ^ 32 →
      ∃ res t', resetClock ack t = some (res, t')
        ∧ t'.writes = t.writes ++ [0 :: be32 ack.toNat]
        ∧ (0 :: be32 ack.toNat).length = 5
        ∧ (∀ b ∈ 0 :: be32 ack.toNat, b < 256))
    ∧ (∀ (ack : Int) (t : Transport), ack < 0 ∨ 2 ^ 32 ≤ ack →
        resetClock ack t = none) := by
  have hb32 : ∀ v : Nat, ∀ b ∈ (0 : Nat) :: be32 v, b < 256 := by
    intro v b hb
    rcases List.mem_cons.mp hb with h | h
    · omega
    · exact be32_mem_lt v b h
  refine ⟨?_, ?_, ?_, ?_, ?_⟩
  · intro pa pb t
    refine ⟨rfl, rfl, ?_, ?_⟩
    · intro b hb
      simp only [setPortsCmd, List.mem_cons, List.not_mem_nil, or_false] at hb
      rcases hb with h | h | h | h | h <;> subst h
      · norm_num
      · exact mask_lt pb 8
      · norm_num
      · exact or80_lt _ (mask_lt pa 5)
      · norm_num
    · show [_, mask pb 8, _, 0x80 ||| mask pa 5, _] = _
      rw [show (32 : Int) = 2 ^ 5 by norm_num, show (256 : Int) = 2 ^ 8 by norm_num,
        setPortsCmd, mask_emod_pow pa 5, mask_emod_pow pb 8]
  · intro pb t
    refine ⟨rfl, rfl, ?_, ?_⟩
    · intro b hb
      simp only [setPortBCmd, List.mem_cons, List.not_mem_nil, or_false] at hb
      rcases hb with h | h | h | h | h <;> subst h
      · norm_num
      · exact mask_lt pb 8
      · norm_num
      · norm_num
      · norm_num
    · show [_, mask pb 8, _, _, _] = _
      rw [show (256 : Int) = 2 ^ 8 by norm_num, setPortBCmd, mask_emod_pow pb 8]
  · intro pa n t
    refine ⟨rfl, by simp [scheduleCmd, be32], ?_, ?_⟩
    · intro b hb
      rcases List.mem_cons.mp hb with h | h
      · subst h
        exact orE0_lt _ (mask_lt pa 5)
      · exact be32_mem_lt _ b h
    · show (0xE0 ||| mask pa 5) :: be32 (mask n 32) = _
      rw [show (32 : Int) = 2 ^ 5 by norm_num, scheduleCmd,
        mask_emod_pow pa 5, mask_emod_pow n 32]
  · intro ack t h0 h32
    by_cases hz : ack = 0
    · subst hz
      refine ⟨true, twrite (0 :: be32 (0 : Int).toNat) t, ?_, by simp [twrite], rfl,
        hb32 _⟩
      rfl
    · refine ⟨(waitFor (0 :: be32 ack.toNat) t.reads).1,
        ⟨(waitFor (0 :: be32 ack.toNat) t.reads).2,
          t.writes ++ [0 :: be32 ack.toNat], t.errors⟩, ?_, rfl, rfl, hb32 _⟩
      unfold resetClock
      rw [if_pos ⟨h0, h32⟩, if_pos hz]
      simp [twrite]
  · intro ack t h
    unfold resetClock
    rw [if_neg (by omega)]

/-- C10 (witness): a negative ack value makes `resetClock` raise without
writing. -/
theorem C10_witness :
    resetClock (-3 : Int) ⟨[], [], 0⟩ = none :=
  C10_encode_wellformed.2.2.2.2 (-3) ⟨[], [], 0⟩ (Or.inl (by norm_num))

end Tiny
